import Mathlib

/-!
# Verification of the `rigidity` row-validation pipeline

Shallow embedding of the `rigidity` package (src/rigidity/__init__.py,
src/rigidity/rules.py, src/rigidity/errors.py): a wrapper around CSV
readers/writers that applies per-column chains of validation rules to
each row, with a `DropRow` control-flow signal that aborts processing of
a whole row.

Python exceptions are modelled by the `RError` type below and fallible
operations return `Except RError _`.  Rows in the sequence
representation are `List α`; `row[key]` on an out-of-range index is an
`IndexError`, as in Python.  Machine-level details that no claim touches
(stdout diagnostics in DISPLAY_SIMPLE mode, unicode digit classes
outside ASCII) are simplified away and noted where relevant.
-/

namespace Rigidity

/-- Python exceptions raised by the code under verification.
`valueError`, `indexError` and the bare `exceptionErr` correspond to
Python's `ValueError`, `IndexError` and `Exception`; `dropRow` is
`rigidity.errors.DropRow`; `attributeError` is Python's
`AttributeError` (its message text is not modelled). -/
inductive RError where
  | valueError (msg : String)
  | indexError (msg : String)
  | exceptionErr (msg : String)
  | dropRow
  | attributeError
  deriving DecidableEq, Repr

instance exceptDecEq {ε α : Type} [DecidableEq ε] [DecidableEq α] :
    DecidableEq (Except ε α) := fun x y =>
  match x, y with
  | .ok a, .ok b =>
    if h : a = b then .isTrue (h ▸ rfl) else .isFalse (fun hh => h (Except.ok.inj hh))
  | .error a, .error b =>
    if h : a = b then .isTrue (h ▸ rfl) else .isFalse (fun hh => h (Except.error.inj hh))
  | .ok _, .error _ => .isFalse (fun hh => Except.noConfusion hh)
  | .error _, .ok _ => .isFalse (fun hh => Except.noConfusion hh)

/-- The spec's taxonomy calls every failure a rule raises to the caller
other than the `DropRow` signal a "ValidationFailed" (src realizations:
`ValueError`, `IndexError`, bare `Exception`). -/
def RError.isValidationFailed : RError → Bool
  | .dropRow => false
  | _ => true

/-- A rule as seen by the pipeline: a `read`-direction and a
`write`-direction transformation (`rigidity.rules.Rule.read/write`;
both default to `apply` in the source, which here simply means the two
fields are equal). -/
structure PRule (α : Type) where
  read : α → Except RError α
  write : α → Except RError α

/-- `row[key]` on a Python list: the value, or `IndexError` when out of
range. -/
def getItem {α : Type} (row : List α) (k : Nat) : Except RError α :=
  match row[k]? with
  | some v => .ok v
  | none => .error (RError.indexError "list index out of range")

/-- The inner loop of `validate_read`/`validate_write`: fold one
column's rule chain over the field value (`for rule in
self.rules[key]: value = rule.read(value)`), propagating the first
exception. `dir` selects the direction (`PRule.read` or
`PRule.write`). -/
def chainApply {α : Type} (dir : PRule α → α → Except RError α) :
    List (PRule α) → α → Except RError α
  | [], v => .ok v
  | r :: rs, v =>
    match dir r v with
    | .ok v2 => chainApply dir rs v2
    | .error e => .error e

/-- The outer loop of `validate_read`/`validate_write` on a sequence
row: `for key in range(len(rules))`, with `value = row[key]`, the chain
fold, and the write-back `row[key] = value`.  `k` is the index of the
first chain in `chains`. -/
def pipelineGo {α : Type} (dir : PRule α → α → Except RError α) :
    List (List (PRule α)) → Nat → List α → Except RError (List α)
  | [], _, row => .ok row
  | chain :: rest, k, row =>
    match getItem row k with
    | .error e => .error e
    | .ok v =>
      match chainApply dir chain v with
      | .error e => .error e
      | .ok v2 => pipelineGo dir rest (k + 1) (row.set k v2)

/-- `Rigidity.validate_read` on a sequence row with a sequence rule
configuration (`self.keys = range(0, len(rules))`).  The
DISPLAY_SIMPLE diagnostic printing re-raises the caught
`ValueError`/`IndexError` unchanged, so it does not affect the
returned value / raised exception modelled here. -/
def validate_read {α : Type} (rules : List (List (PRule α))) (row : List α) :
    Except RError (List α) :=
  pipelineGo PRule.read rules 0 row

/-- `Rigidity.validate_write`, symmetric to `validate_read` with each
rule's `write` method. -/
def validate_write {α : Type} (rules : List (List (PRule α))) (row : List α) :
    Except RError (List α) :=
  pipelineGo PRule.write rules 0 row

theorem chainApply_append {α : Type} (dir : PRule α → α → Except RError α)
    (xs ys : List (PRule α)) (v : α) :
    chainApply dir (xs ++ ys) v =
      match chainApply dir xs v with
      | .ok v2 => chainApply dir ys v2
      | .error e => .error e := by
  induction xs generalizing v with
  | nil => rfl
  | cons r rs ih =>
    simp only [List.cons_append, chainApply]
    cases dir r v with
    | ok v2 => exact ih v2
    | error e => rfl

theorem pipelineGo_append {α : Type} (dir : PRule α → α → Except RError α)
    (xs ys : List (List (PRule α))) (k : Nat) (row : List α) :
    pipelineGo dir (xs ++ ys) k row =
      match pipelineGo dir xs k row with
      | .ok row2 => pipelineGo dir ys (k + xs.length) row2
      | .error e => .error e := by
  induction xs generalizing k row with
  | nil => simp [pipelineGo]
  | cons c cs ih =>
    simp only [List.cons_append, pipelineGo]
    rcases hg : getItem row k with e | v
    · simp only [hg]
    · simp only [hg]
      rcases hc : chainApply dir c v with e | v2
      · simp only [hc]
      · simp only [hc, List.append_eq, ih]
        rcases hp : pipelineGo dir cs (k + 1) (row.set k v2) with e | row2
        · simp only [hp]
        · simp only [hp, List.length_cons]
          have hkl : k + 1 + cs.length = k + (cs.length + 1) := by omega
          rw [hkl]

theorem List.set_getElem?_eq {α : Type} (row : List α) (k : Nat) (v : α)
    (h : row[k]? = some v) : row.set k v = row := by
  induction row generalizing k with
  | nil => simp at h
  | cons x xs ih =>
    cases k with
    | zero =>
      simp at h
      simp [List.set, h]
    | succ n =>
      simp at h
      simp [List.set, ih n h]

theorem pipelineGo_empty_chains {α : Type} (dir : PRule α → α → Except RError α)
    (rules : List (List (PRule α))) (k : Nat) (row : List α)
    (hempty : ∀ c ∈ rules, c = []) (hlen : k + rules.length ≤ row.length) :
    pipelineGo dir rules k row = .ok row := by
  induction rules generalizing k row with
  | nil => rfl
  | cons c cs ih =>
    have hc : c = [] := hempty c (List.mem_cons_self c cs)
    have hk : k < row.length := by
      simp only [List.length_cons] at hlen
      omega
    have hget : row[k]? = some row[k] := List.getElem?_eq_getElem hk
    simp only [pipelineGo, getItem, hget, hc, chainApply]
    rw [List.set_getElem?_eq row k _ hget]
    exact ih (k + 1) row (fun d hd => hempty d (List.mem_cons_of_mem c hd))
      (by simp only [List.length_cons] at hlen; omega)

/-- **C5 (counterexample).**  The claim states that with every rule
chain empty, `validate_read`/`validate_write` are the identity on
*every* row.  With the configuration `[[]]` (one active column, empty
chain) and the empty row, `row[0]` raises `IndexError` before any rule
could run, so neither operation returns the row. -/
theorem c5_empty_rules_counterexample :
    validate_read ([[]] : List (List (PRule Nat))) [] =
        .error (RError.indexError "list index out of range") ∧
      validate_read ([[]] : List (List (PRule Nat))) [] ≠ .ok [] ∧
      validate_write ([[]] : List (List (PRule Nat))) [] =
        .error (RError.indexError "list index out of range") ∧
      validate_write ([[]] : List (List (PRule Nat))) [] ≠ .ok [] := by
  refine ⟨rfl, fun h => ?_, rfl, fun h => ?_⟩ <;> simp [validate_read, validate_write,
    pipelineGo, getItem] at h

/-- **C5 (amended).**  For every row that supplies a field for each
active column key (row at least as long as the rule configuration),
when every configured rule chain is empty, `validate_read` and
`validate_write` both return the row unchanged. -/
theorem c5_empty_rules_identity {α : Type} (rules : List (List (PRule α)))
    (row : List α) (hempty : ∀ c ∈ rules, c = [])
    (hlen : rules.length ≤ row.length) :
    validate_read rules row = .ok row ∧ validate_write rules row = .ok row :=
  ⟨pipelineGo_empty_chains PRule.read rules 0 row hempty (by omega),
   pipelineGo_empty_chains PRule.write rules 0 row hempty (by omega)⟩

/-- Witness for C5 (amended): two empty chains, a row of two fields. -/
theorem c5_empty_rules_identity_witness :
    validate_read ([[], []] : List (List (PRule Nat))) [7, 8] = .ok [7, 8] ∧
      validate_write ([[], []] : List (List (PRule Nat))) [7, 8] = .ok [7, 8] :=
  c5_empty_rules_identity [[], []] [7, 8]
    (by
      intro c hc
      simp only [List.mem_cons, List.not_mem_nil, or_false] at hc
      rcases hc with rfl | rfl <;> rfl)
    (by simp)

theorem pipelineGo_dropRow {α : Type} (dir : PRule α → α → Except RError α)
    (pre : List (List (PRule α))) (chainA : List (PRule α)) (r : PRule α)
    (row row' : List α) (v v' : α)
    (h1 : pipelineGo dir pre 0 row = .ok row')
    (h2 : getItem row' pre.length = .ok v)
    (h3 : chainApply dir chainA v = .ok v')
    (h4 : dir r v' = .error .dropRow)
    (chainB : List (PRule α)) (suf : List (List (PRule α))) :
    pipelineGo dir (pre ++ (chainA ++ r :: chainB) :: suf) 0 row =
      .error .dropRow := by
  rw [pipelineGo_append, h1]
  simp only [pipelineGo, Nat.zero_add, h2]
  rw [chainApply_append, h3]
  simp only [chainApply, h4]

/-- **C1.**  If, while `validate_read` (resp. `validate_write`)
processes a row, some rule of an active column's chain raises
`DropRow` — i.e. the earlier columns all succeeded, the dropping
column's chain succeeded up to that rule, and the rule raises
`DropRow` on the folded value — then the whole call returns the
`DropRow` signal to the caller, whatever the remaining rules of that
chain (`chainB`) and the chains of all later columns (`suf`) are: they
are never applied, and the signal is not swallowed inside the
pipeline. -/
theorem c1_dropRow_aborts_row {α : Type} (pre : List (List (PRule α)))
    (chainA : List (PRule α)) (r : PRule α) (row row' : List α) (v v' : α) :
    (validate_read pre row = .ok row' →
      getItem row' pre.length = .ok v →
      chainApply PRule.read chainA v = .ok v' →
      r.read v' = .error .dropRow →
      ∀ (chainB : List (PRule α)) (suf : List (List (PRule α))),
        validate_read (pre ++ (chainA ++ r :: chainB) :: suf) row =
          .error .dropRow) ∧
    (validate_write pre row = .ok row' →
      getItem row' pre.length = .ok v →
      chainApply PRule.write chainA v = .ok v' →
      r.write v' = .error .dropRow →
      ∀ (chainB : List (PRule α)) (suf : List (List (PRule α))),
        validate_write (pre ++ (chainA ++ r :: chainB) :: suf) row =
          .error .dropRow) :=
  ⟨fun h1 h2 h3 h4 chainB suf =>
      pipelineGo_dropRow PRule.read pre chainA r row row' v v' h1 h2 h3 h4 chainB suf,
   fun h1 h2 h3 h4 chainB suf =>
      pipelineGo_dropRow PRule.write pre chainA r row row' v v' h1 h2 h3 h4 chainB suf⟩

/-- A rule that increments, in both directions (a concrete stand-in for
an arbitrary succeeding rule in witnesses). -/
def incRule : PRule Nat :=
  ⟨fun n => .ok (n + 1), fun n => .ok (n + 1)⟩

/-- A rule that unconditionally raises `DropRow`, in both directions
(the witnesses' concrete dropping rule, e.g.
`Integer(action=ACTION_DROPROW)` on unparseable data). -/
def dropRule : PRule Nat :=
  ⟨fun _ => .error .dropRow, fun _ => .error .dropRow⟩

/-- Witness for C1: column 0 succeeds, column 1's second rule drops,
column 2 and the rest of column 1's chain are arbitrary (`incRule`),
and the whole-row validation returns the `DropRow` signal. -/
theorem c1_dropRow_aborts_row_witness :
    validate_read ([[incRule]] ++ ([incRule] ++ dropRule :: [incRule]) :: [[incRule]])
        [1, 2, 3] = .error .dropRow ∧
      validate_write ([[incRule]] ++ ([incRule] ++ dropRule :: [incRule]) :: [[incRule]])
        [1, 2, 3] = .error .dropRow :=
  ⟨(c1_dropRow_aborts_row [[incRule]] [incRule] dropRule [1, 2, 3] [2, 2, 3] 2 3).1
      rfl rfl rfl rfl [incRule] [[incRule]],
   (c1_dropRow_aborts_row [[incRule]] [incRule] dropRule [1, 2, 3] [2, 2, 3] 2 3).2
      rfl rfl rfl rfl [incRule] [[incRule]]⟩

/-- `Except.toOption` specialised to the pipeline's results: the
validated row when validation succeeded, `none` when it raised. -/
def okValue {β : Type} : Except RError β → Option β
  | .ok v => some v
  | .error _ => none

/-- `Rigidity.__iter__` with the underlying CSV reader modelled as the
list of rows it yields before exhaustion: each row is validated with
`validate_read`; a `DropRow` signal skips the row and continues with
the next one; any other exception propagates to the consumer of the
iterator; exhaustion of the source ends the iteration (`.ok` of the
yielded rows).  (`Rigidity.__next__` implements the same skipping
one row at a time.) -/
def iterRows {α : Type} (rules : List (List (PRule α))) :
    List (List α) → Except RError (List (List α))
  | [] => .ok []
  | r :: rs =>
    match validate_read rules r with
    | .ok v =>
      match iterRows rules rs with
      | .ok out => .ok (v :: out)
      | .error e => .error e
    | .error .dropRow => iterRows rules rs
    | .error e => .error e

/-- **C3.**  If every source row either validates or raises `DropRow`
(no other exception), iterating the wrapper yields exactly the
validated rows of the non-dropped source rows, in source order, and
then signals end-of-data (`.ok`) exactly as the exhausted underlying
source does. -/
theorem c3_iter_skips_dropped_rows {α : Type} (rules : List (List (PRule α)))
    (source : List (List α))
    (hok : ∀ r ∈ source, validate_read rules r = .error .dropRow ∨
      ∃ v, validate_read rules r = .ok v) :
    iterRows rules source =
      .ok (source.filterMap (fun r => okValue (validate_read rules r))) := by
  induction source with
  | nil => rfl
  | cons r rs ih =>
    have hrest := ih (fun d hd => hok d (List.mem_cons_of_mem r hd))
    rcases hok r (List.mem_cons_self r rs) with hd | ⟨v, hv⟩
    · simp only [iterRows, hd, List.filterMap_cons, okValue]
      exact hrest
    · simp only [iterRows, hv, hrest, List.filterMap_cons, okValue]

/-- A concrete read rule for the C3 witness: drop the row when the
field is `0`, otherwise double it. -/
def dropOnZero : PRule Nat :=
  ⟨fun v => if v = 0 then .error .dropRow else .ok (2 * v),
   fun v => if v = 0 then .error .dropRow else .ok (2 * v)⟩

/-- Witness for C3: the source yields R1 = `[0]` (dropped) then
R2 = `[3]` (valid); the wrapper yields only the validated R2 (`[6]`)
and then end-of-data. -/
theorem c3_iter_skips_dropped_rows_witness :
    iterRows [[dropOnZero]] [[0], [3]] = .ok [[6]] := by
  have h := c3_iter_skips_dropped_rows [[dropOnZero]] [[0], [3]]
    (by
      intro r hr
      simp only [List.mem_cons, List.not_mem_nil, or_false] at hr
      rcases hr with rfl | rfl
      · exact Or.inl rfl
      · exact Or.inr ⟨[6], rfl⟩)
  exact h

/-- `Rigidity.writerow` with the underlying CSV writer modelled as the
list of rows written to it so far (`sink`): the row is validated with
`validate_write` and the result written to the sink; a `DropRow`
raised during validation is caught and the method returns normally
without touching the sink; any other exception propagates. -/
def writerow {α : Type} (rules : List (List (PRule α)))
    (sink : List (List α)) (row : List α) : Except RError (List (List α)) :=
  match validate_write rules row with
  | .ok v => .ok (sink ++ [v])
  | .error .dropRow => .ok sink
  | .error e => .error e

/-- **C4.**  For every row whose `validate_write` raises `DropRow`,
`writerow` makes zero calls to the underlying sink (the sink is
unchanged) and returns normally (`.ok`, no exception reaches the
caller). -/
theorem c4_writerow_drops_silently {α : Type} (rules : List (List (PRule α)))
    (sink : List (List α)) (row : List α)
    (h : validate_write rules row = .error .dropRow) :
    writerow rules sink row = .ok sink := by
  simp only [writerow, h]

/-- Witness for C4: a dropping rule, a sink with one prior row; the
write is discarded, the sink unchanged, no exception raised. -/
theorem c4_writerow_drops_silently_witness :
    writerow [[dropRule]] [[9]] [5] = .ok [[9]] :=
  c4_writerow_drops_silently [[dropRule]] [[9]] [5] rfl

/-! ## Object-identity model for the row-copy behaviour (C8)

`validate_read`/`validate_write` begin with

    if not isinstance(row, (list, dict)):
        row = list(row)

and then mutate `row[key]` in place.  To reason about which object the
caller ends up observing, mutable row objects live in a small heap: a
list of cells indexed by address.  A row argument is either a
reference to an existing cell (the caller's own `list`/`dict` object)
or an immutable value such as a tuple, whose contents are copied into
a freshly allocated cell before any mutation. -/

/-- Reading a heap cell. -/
def getCell {α : Type} (cells : List (List α)) (a : Nat) : Except RError (List α) :=
  match cells[a]? with
  | some row => .ok row
  | none => .error (RError.indexError "invalid heap address")

/-- The row argument of `validate_read`/`validate_write`: a mutable
`list`/`dict` object (a heap reference), or an immutable sequence such
as a tuple (its field contents). -/
inductive RowArg (α : Type) where
  | ref (addr : Nat)
  | immut (contents : List α)

/-- The `for key in range(len(rules))` loop operating directly on the
heap cell `a` holding the row object: each iteration reads `row[key]`
from the cell, folds the rule chain, and writes the result back into
the cell (`row[key] = value`). -/
def validateObjGo {α : Type} (dir : PRule α → α → Except RError α) :
    List (List (PRule α)) → Nat → List (List α) → Nat →
      Except RError (List (List α))
  | [], _, cells, _ => .ok cells
  | chain :: rest, k, cells, a =>
    match getCell cells a with
    | .error e => .error e
    | .ok row =>
      match getItem row k with
      | .error e => .error e
      | .ok v =>
        match chainApply dir chain v with
        | .error e => .error e
        | .ok v2 => validateObjGo dir rest (k + 1) (cells.set a (row.set k v2)) a

/-- `validate_read`/`validate_write` (direction `dir`) at the object
level: a `list`/`dict` argument is processed in place in its own cell
and that same address is returned; any other row is first copied into
a freshly allocated cell (`row = list(row)`), which is then processed
and returned. -/
def validateObj {α : Type} (dir : PRule α → α → Except RError α)
    (rules : List (List (PRule α))) (cells : List (List α)) :
    RowArg α → Except RError (List (List α) × Nat)
  | .ref a => (validateObjGo dir rules 0 cells a).map (fun s => (s, a))
  | .immut contents =>
    (validateObjGo dir rules 0 (cells ++ [contents]) cells.length).map
      (fun s => (s, cells.length))

theorem validateObjGo_frame {α : Type} (dir : PRule α → α → Except RError α)
    (rules : List (List (PRule α))) (k : Nat) (cells s : List (List α)) (a : Nat)
    (h : validateObjGo dir rules k cells a = .ok s) :
    ∀ i, i ≠ a → s[i]? = cells[i]? := by
  induction rules generalizing k cells with
  | nil =>
    simp only [validateObjGo] at h
    cases h
    intro i _
    rfl
  | cons c cs ih =>
    simp only [validateObjGo] at h
    rcases hg : getCell cells a with e | row <;> simp only [hg] at h
    · cases h
    · rcases hi : getItem row k with e | v <;> simp only [hi] at h
      · cases h
      · rcases hc : chainApply dir c v with e | v2 <;> simp only [hc] at h
        · cases h
        · intro i hia
          rw [ih (k + 1) (cells.set a (row.set k v2)) h i hia]
          exact List.getElem?_set_ne (Ne.symm hia)

theorem validateObjGo_spec {α : Type} (dir : PRule α → α → Except RError α)
    (rules : List (List (PRule α))) (k : Nat) (cells : List (List α)) (a : Nat)
    (row : List α) (h : cells[a]? = some row) :
    validateObjGo dir rules k cells a =
      match pipelineGo dir rules k row with
      | .ok out => .ok (cells.set a out)
      | .error e => .error e := by
  induction rules generalizing k cells row with
  | nil =>
    simp only [validateObjGo, pipelineGo]
    rw [List.set_getElem?_eq cells a row h]
  | cons c cs ih =>
    have ha : a < cells.length := by
      by_contra hlt
      rw [List.getElem?_eq_none (by omega)] at h
      cases h
    simp only [validateObjGo, pipelineGo, getCell, h]
    rcases hi : getItem row k with e | v <;> simp only [hi]
    rcases hc : chainApply dir c v with e | v2 <;> simp only [hc]
    rw [ih (k + 1) (cells.set a (row.set k v2)) (row.set k v2)
      (by rw [List.getElem?_set_self ha])]
    rcases hp : pipelineGo dir cs (k + 1) (row.set k v2) with e | out <;> simp only [hp]
    simp only [List.set_set]
    try rfl

/-- **C8.**  Frame behaviour of the row argument.  When the row is not
a `list`/`dict` (e.g. a tuple), its contents are copied into a fresh
object before any mutation: the returned address is the freshly
allocated one, every pre-existing object in the heap — in particular
the caller's row — is left entirely unchanged, and the validated
contents live only in the new object.  When the row already is a
`list`/`dict`, no copy is made: the returned address is the caller's
own object, which now holds the validated contents (it was mutated in
place); all other objects are untouched. -/
theorem c8_row_copy_frame {α : Type} (dir : PRule α → α → Except RError α)
    (rules : List (List (PRule α))) (cells : List (List α)) (a : Nat)
    (contents : List α) (s : List (List α)) (a' : Nat) :
    (validateObj dir rules cells (.immut contents) = .ok (s, a') →
      a' = cells.length ∧
      (∀ i, i < cells.length → s[i]? = cells[i]?) ∧
      ∃ out, pipelineGo dir rules 0 contents = .ok out ∧ s[a']? = some out) ∧
    (cells[a]? = some contents →
      validateObj dir rules cells (.ref a) = .ok (s, a') →
      a' = a ∧
      (∀ i, i ≠ a → s[i]? = cells[i]?) ∧
      ∃ out, pipelineGo dir rules 0 contents = .ok out ∧
        s[a]? = some out ∧ s = cells.set a out) := by
  constructor
  · intro h
    simp only [validateObj] at h
    rcases hgo : validateObjGo dir rules 0 (cells ++ [contents]) cells.length with e | s0 <;>
      rw [hgo] at h
    · cases h
    · simp only [Except.map] at h
      cases h
      have hbase : (cells ++ [contents])[cells.length]? = some contents := by simp
      have hspec := validateObjGo_spec dir rules 0 (cells ++ [contents])
        cells.length contents hbase
      rw [hgo] at hspec
      rcases hp : pipelineGo dir rules 0 contents with e | out <;> rw [hp] at hspec
      · cases hspec
      · refine ⟨rfl, ?_, out, rfl, ?_⟩
        · intro i hi
          have := validateObjGo_frame dir rules 0 (cells ++ [contents])
            _ cells.length hgo i (by omega)
          rw [this, List.getElem?_append_left hi]
        · cases hspec
          rw [List.getElem?_set_self (by simp)]
  · intro hmem h
    simp only [validateObj] at h
    rcases hgo : validateObjGo dir rules 0 cells a with e | s0 <;> rw [hgo] at h
    · cases h
    · simp only [Except.map] at h
      cases h
      have ha : a < cells.length := by
        by_contra hlt
        rw [List.getElem?_eq_none (by omega)] at hmem
        cases hmem
      have hspec := validateObjGo_spec dir rules 0 cells a contents hmem
      rw [hgo] at hspec
      rcases hp : pipelineGo dir rules 0 contents with e | out <;> rw [hp] at hspec
      · cases hspec
      · cases hspec
        exact ⟨rfl, validateObjGo_frame dir rules 0 cells _ a hgo,
          out, rfl, List.getElem?_set_self ha, rfl⟩

/-- Witness for C8: one column incrementing the field, heap holding one
row `[5]`.  Passing it as an immutable row leaves cell 0 at `[5]` and
returns fresh cell 1 holding `[6]`; passing it as a `list` reference
returns address 0, whose cell now holds `[6]`. -/
theorem c8_row_copy_frame_witness :
    ((1 : Nat) = ([[5]] : List (List Nat)).length ∧
      (∀ i, i < ([[5]] : List (List Nat)).length →
        ([[5], [6]] : List (List Nat))[i]? = ([[5]] : List (List Nat))[i]?) ∧
      ∃ out, pipelineGo PRule.read [[incRule]] 0 [5] = .ok out ∧
        ([[5], [6]] : List (List Nat))[(1 : Nat)]? = some out) ∧
    ((0 : Nat) = (0 : Nat) ∧
      (∀ i, i ≠ (0 : Nat) → ([[6]] : List (List Nat))[i]? = ([[5]] : List (List Nat))[i]?) ∧
      ∃ out, pipelineGo PRule.read [[incRule]] 0 [5] = .ok out ∧
        ([[6]] : List (List Nat))[(0 : Nat)]? = some out ∧
        ([[6]] : List (List Nat)) = ([[5]] : List (List Nat)).set 0 out) :=
  ⟨(c8_row_copy_frame PRule.read [[incRule]] [[5]] 0 [5] [[5], [6]] 1).1 rfl,
   (c8_row_copy_frame PRule.read [[incRule]] [[5]] 0 [5] [[6]] 0).2 rfl rfl⟩

/-! ## Python numeric literals

`rigidity.rules.Integer.apply` / `Float.apply` call the builtins
`int(value)` / `float(value)`.  The builtins' string grammars are
embedded here (ASCII fragment): surrounding whitespace, an optional
sign, digit groups that may contain single underscores between digits;
`float` additionally accepts a fractional part, an exponent and the
special tokens `inf`/`infinity`/`nan` (case-insensitive).  `float`
values are modelled exactly (as the rational value the literal
denotes) plus the three special values. -/

/-- Numeric value of an ASCII digit. -/
def digitVal (c : Char) : Nat := c.toNat - 48

/-- Whitespace stripped by `int()`/`float()` (ASCII fragment). -/
def isPySpace (c : Char) : Bool :=
  c = ' ' || c = '\t' || c = '\n' || c = '\r' || c = '\x0b' || c = '\x0c'

/-- `str.strip()` of surrounding whitespace. -/
def pyStrip (cs : List Char) : List Char :=
  ((cs.dropWhile isPySpace).reverse.dropWhile isPySpace).reverse

/-- The tail of a digit group: `(("_")? digit)*` — every underscore
must sit between two digits. -/
def digitsTailU : List Char → Option (List Nat)
  | [] => some []
  | '_' :: [] => none
  | '_' :: c :: rest =>
    if c.isDigit then (digitsTailU rest).map (fun ds => digitVal c :: ds) else none
  | c :: rest =>
    if c.isDigit then (digitsTailU rest).map (fun ds => digitVal c :: ds) else none

/-- A non-empty digit group with optional single underscores between
digits, as accepted by `int()`. -/
def parseDigitsU : List Char → Option (List Nat)
  | [] => none
  | c :: rest =>
    if c.isDigit then (digitsTailU rest).map (fun ds => digitVal c :: ds) else none

/-- Decimal value of a digit list. -/
def natOfDigits (ds : List Nat) : Nat := ds.foldl (fun acc d => acc * 10 + d) 0

/-- `int(s)` after whitespace stripping: optional sign, digit group. -/
def pyIntCore : List Char → Option Int
  | '+' :: rest => (parseDigitsU rest).map (fun ds => (natOfDigits ds : Int))
  | '-' :: rest => (parseDigitsU rest).map (fun ds => -(natOfDigits ds : Int))
  | cs => (parseDigitsU cs).map (fun ds => (natOfDigits ds : Int))

/-- Python `int(s)` on a string: `some n` on the exact integer value,
`none` when `int` raises `ValueError`. -/
def pyIntParse (s : String) : Option Int := pyIntCore (pyStrip s.data)

/-- The value of a Python float as `float(s)` is specified: the exact
rational value of the accepted literal, or one of the special values.
(IEEE-754 rounding of the rational to a double is outside the scope of
the claims, which speak of "the exact numeric value".) -/
inductive PyFloat where
  | finite (q : ℚ)
  | inf
  | negInf
  | nan
  deriving DecidableEq, Repr

/-- Every underscore in a `float` literal must be flanked by digits;
`p` is the previous character. -/
def underscoresOkAux : Char → List Char → Bool
  | _, [] => true
  | p, '_' :: rest =>
    match rest with
    | [] => false
    | c2 :: _ => p.isDigit && c2.isDigit && underscoresOkAux '_' rest
  | _, c :: rest => underscoresOkAux c rest

/-- Whole-literal underscore placement check. -/
def underscoresOk (cs : List Char) : Bool := underscoresOkAux ' ' cs

/-- Split a `float` literal at the first `e`/`E` (mantissa, exponent). -/
def splitOnExpChar : List Char → List Char × Option (List Char)
  | [] => ([], none)
  | c :: rest =>
    if c = 'e' || c = 'E' then ([], some rest)
    else
      let (m, e) := splitOnExpChar rest
      (c :: m, e)

/-- Mantissa `digits [. digits]` with at least one digit (underscores
already removed): its exact rational value. -/
def parseMantissa (cs : List Char) : Option ℚ :=
  let intPart := cs.takeWhile Char.isDigit
  let rest := cs.dropWhile Char.isDigit
  match rest with
  | [] => if intPart.isEmpty then none else some (natOfDigits (intPart.map digitVal) : ℚ)
  | '.' :: frac =>
    if frac.all Char.isDigit && !(intPart.isEmpty && frac.isEmpty) then
      some ((natOfDigits ((intPart ++ frac).map digitVal) : ℚ) / ((10 : ℚ) ^ frac.length))
    else none
  | _ => none

/-- Exponent `[sign] digits`, non-empty (underscores already removed). -/
def parseExpDigits : List Char → Option Int
  | '+' :: rest =>
    if !rest.isEmpty && rest.all Char.isDigit then
      some (natOfDigits (rest.map digitVal) : Int)
    else none
  | '-' :: rest =>
    if !rest.isEmpty && rest.all Char.isDigit then
      some (-(natOfDigits (rest.map digitVal) : Int))
    else none
  | cs =>
    if !cs.isEmpty && cs.all Char.isDigit then
      some (natOfDigits (cs.map digitVal) : Int)
    else none

/-- `float(s)` after whitespace stripping: optional sign, then
`inf`/`infinity`/`nan` (case-insensitive) or a decimal literal with
optional exponent. -/
def pyFloatCore (cs0 : List Char) : Option PyFloat :=
  let signed : Bool × List Char :=
    match cs0 with
    | '+' :: rest => (false, rest)
    | '-' :: rest => (true, rest)
    | rest => (false, rest)
  let neg := signed.1
  let cs := signed.2
  let low := cs.map Char.toLower
  if low = "inf".data || low = "infinity".data then
    some (if neg then .negInf else .inf)
  else if low = "nan".data then some .nan
  else if underscoresOk cs then
    let cs2 := cs.filter (fun c => c ≠ '_')
    match splitOnExpChar cs2 with
    | (m, none) => (parseMantissa m).map (fun q => .finite (if neg then -q else q))
    | (m, some e) =>
      match parseMantissa m, parseExpDigits e with
      | some q, some ex => some (.finite ((if neg then -q else q) * (10 : ℚ) ^ ex))
      | _, _ => none
  else none

/-- Python `float(s)` on a string: `some f` on the value, `none` when
`float` raises `ValueError`. -/
def pyFloatParse (s : String) : Option PyFloat := pyFloatCore (pyStrip s.data)

namespace Integer

def ACTION_ERROR : Nat := 1
def ACTION_ZERO : Nat := 2
def ACTION_DROPROW : Nat := 3

/-- `rigidity.rules.Integer.apply` on a string field: `return
int(value)`; on `ValueError`, re-raise under ACTION_ERROR, return `0`
under ACTION_ZERO, raise `DropRow` under ACTION_DROPROW, re-raise for
any other `action` value. -/
def apply (action : Nat) (s : String) : Except RError Int :=
  match pyIntParse s with
  | some n => .ok n
  | none =>
    if action = ACTION_ERROR then
      .error (.valueError "invalid literal for int() with base 10")
    else if action = ACTION_ZERO then .ok 0
    else if action = ACTION_DROPROW then .error .dropRow
    else .error (.valueError "invalid literal for int() with base 10")

end Integer

namespace Float

def ACTION_ERROR : Nat := 1
def ACTION_ZERO : Nat := 2
def ACTION_DROPROW : Nat := 3

/-- `rigidity.rules.Float.apply` on a string field: `return
float(value)`; on `ValueError`, re-raise under ACTION_ERROR, return
`0.0` under ACTION_ZERO, raise `DropRow` under ACTION_DROPROW,
re-raise for any other `action` value. -/
def apply (action : Nat) (s : String) : Except RError PyFloat :=
  match pyFloatParse s with
  | some f => .ok f
  | none =>
    if action = ACTION_ERROR then
      .error (.valueError "could not convert string to float")
    else if action = ACTION_ZERO then .ok (.finite 0)
    else if action = ACTION_DROPROW then .error .dropRow
    else .error (.valueError "could not convert string to float")

end Float

/-- **C2.**  Integer and Float rules: every input accepted by the
target numeric grammar is mapped to its exact numeric value (whatever
the action); every rejected input raises `ValueError` (a
"ValidationFailed") under ACTION_ERROR, yields `0` / `0.0` under
ACTION_ZERO, and raises `DropRow` under ACTION_DROPROW. -/
theorem c2_integer_float_policies (s : String) :
    (∀ n, pyIntParse s = some n → ∀ action, Integer.apply action s = .ok n) ∧
    (pyIntParse s = none →
      Integer.apply Integer.ACTION_ERROR s =
          .error (.valueError "invalid literal for int() with base 10") ∧
        (RError.valueError "invalid literal for int() with base 10").isValidationFailed = true ∧
        Integer.apply Integer.ACTION_ZERO s = .ok 0 ∧
        Integer.apply Integer.ACTION_DROPROW s = .error .dropRow) ∧
    (∀ f, pyFloatParse s = some f → ∀ action, Float.apply action s = .ok f) ∧
    (pyFloatParse s = none →
      Float.apply Float.ACTION_ERROR s =
          .error (.valueError "could not convert string to float") ∧
        (RError.valueError "could not convert string to float").isValidationFailed = true ∧
        Float.apply Float.ACTION_ZERO s = .ok (.finite 0) ∧
        Float.apply Float.ACTION_DROPROW s = .error .dropRow) := by
  refine ⟨fun n hn action => ?_, fun hn => ?_, fun f hf action => ?_, fun hf => ?_⟩
  · simp only [Integer.apply, hn]
  · exact ⟨by simp only [Integer.apply, hn]; rfl, rfl,
      by simp only [Integer.apply, hn]; rfl,
      by simp only [Integer.apply, hn]; rfl⟩
  · simp only [Float.apply, hf]
  · exact ⟨by simp only [Float.apply, hf]; rfl, rfl,
      by simp only [Float.apply, hf]; rfl,
      by simp only [Float.apply, hf]; rfl⟩

/-- Witness for C2: `"42"` parses to `42`; `" -1_0 "` parses to `-10`;
`"1.5"` parses to the exact value `3/2`; `"x"` parses as neither,
exercising all three failure policies. -/
theorem c2_integer_float_policies_witness :
    Integer.apply Integer.ACTION_DROPROW "42" = .ok 42 ∧
      Integer.apply Integer.ACTION_ERROR " -1_0 " = .ok (-10) ∧
      Integer.apply Integer.ACTION_ERROR "x" =
        .error (.valueError "invalid literal for int() with base 10") ∧
      Integer.apply Integer.ACTION_ZERO "x" = .ok 0 ∧
      Integer.apply Integer.ACTION_DROPROW "x" = .error .dropRow ∧
      Float.apply Float.ACTION_ERROR "1.5" = .ok (.finite (3 / 2)) ∧
      Float.apply Float.ACTION_ERROR "x" =
        .error (.valueError "could not convert string to float") ∧
      Float.apply Float.ACTION_ZERO "x" = .ok (.finite 0) ∧
      Float.apply Float.ACTION_DROPROW "x" = .error .dropRow := by
  refine ⟨(c2_integer_float_policies "42").1 42 (by decide) _,
    (c2_integer_float_policies " -1_0 ").1 (-10) (by decide) _,
    ((c2_integer_float_policies "x").2.1 (by decide)).1,
    ((c2_integer_float_policies "x").2.1 (by decide)).2.2.1,
    ((c2_integer_float_policies "x").2.1 (by decide)).2.2.2,
    (c2_integer_float_policies "1.5").2.2.1 (.finite (3 / 2))
      (by
        have h : pyFloatParse "1.5" = some (.finite ((15 : ℚ) / (10 : ℚ) ^ (1 : ℕ))) := rfl
        rw [h]
        simp only [Option.some.injEq, PyFloat.finite.injEq]
        norm_num) _,
    ((c2_integer_float_policies "x").2.2.2 (by decide)).1,
    ((c2_integer_float_policies "x").2.2.2 (by decide)).2.2.1,
    ((c2_integer_float_policies "x").2.2.2 (by decide)).2.2.2⟩

/-- Python's nonnegative `%` (`a % b` for `b > 0` lands in `[0, b)`),
as used in `(-1 * (odd + even) % 10)`. -/
def pyMod (a b : Int) : Int := (a % b + b) % b

/-- Indices selected by the Python slice `[start:stop:step]` on a
sequence of length `len` (nonnegative bounds, positive step). -/
def sliceIdx (len start stop step : Nat) : List Nat :=
  List.range' start ((min stop len - start + (step - 1)) / step) step

/-- Python slice `cs[start:stop:step]` on a character list. -/
def pySlice (cs : List Char) (start stop step : Nat) : List Char :=
  (sliceIdx cs.length start stop step).map (fun i => cs.getD i ' ')

namespace UpcA

/-- Python `str.isdigit()` (ASCII fragment): non-empty and all ASCII
digits. -/
def isdigitStr (cs : List Char) : Bool := !cs.isEmpty && cs.all Char.isDigit

/-- `rigidity.rules.UpcA.apply` on the already-stringified value
(`value = str(value)`): reject non-digit strings, left-pad with `'0'`
to 12 digits (`'0' * (12 - len(value)) + value`), reject anything
longer than 12 digits, and in strict mode verify the UPC-A check
digit: `odd = sum(value[0:11:2]) * 3`, `even = sum(value[1:11:2])`,
`check = (-1 * (odd + even) % 10)`, compared against `int(value[-1])`. -/
def apply (strict : Bool) (s : String) : Except RError String :=
  if !isdigitStr s.data then .error (.valueError "UPC-A code is not numeric.")
  else
    let value := List.replicate (12 - s.data.length) '0' ++ s.data
    if value.length > 12 then .error (.valueError "UPC-A is longer than 12 digits")
    else if strict then
      let odd : Int := (((pySlice value 0 11 2).map digitVal).sum : Int) * 3
      let even : Int := (((pySlice value 1 11 2).map digitVal).sum : Int)
      let check : Int := pyMod (-1 * (odd + even)) 10
      if (digitVal (value.getLast?.getD '0') : Int) ≠ check then
        .error (.valueError "UPC-A check digit is incorrect")
      else .ok (String.mk value)
    else .ok (String.mk value)

end UpcA

/-- **C6.**  The UpcA rule: the two concrete strict-mode verdicts and
the strict=False passthrough from the spec; every input containing a
non-digit raises; every input longer than 12 digits raises; shorter
all-digit inputs are left-padded with zeros to 12 digits; and for a
12-digit input, strict mode accepts it (returning it unchanged)
exactly when the 12th digit equals the negated, mod-10 sum of three
times the digits at positions 0,2,4,6,8,10 plus the digits at
positions 1,3,5,7,9. -/
theorem c6_upca_checksum (s : String) :
    UpcA.apply true "000000000000" = .ok "000000000000" ∧
      UpcA.apply true "000000000001" =
        .error (.valueError "UPC-A check digit is incorrect") ∧
      UpcA.apply false "000000000001" = .ok "000000000001" ∧
      ((∃ c ∈ s.data, ¬ c.isDigit) → ∀ strict,
        UpcA.apply strict s = .error (.valueError "UPC-A code is not numeric.")) ∧
      (s.data.length > 12 → ∀ strict, ∃ m,
        UpcA.apply strict s = .error (.valueError m)) ∧
      (UpcA.isdigitStr s.data = true → s.data.length ≤ 12 →
        ∃ out, UpcA.apply false s = .ok out ∧ out.data.length = 12 ∧
          out.data.drop (12 - s.data.length) = s.data ∧
          ∀ c ∈ out.data.take (12 - s.data.length), c = '0') ∧
      (UpcA.isdigitStr s.data = true → s.data.length = 12 →
        (UpcA.apply true s = .ok s ↔
          (digitVal (s.data.getD 11 '0') : Int) =
            pyMod
              (-(([0, 2, 4, 6, 8, 10].map
                    (fun i => (digitVal (s.data.getD i '0') : Int))).sum * 3 +
                  ([1, 3, 5, 7, 9].map
                    (fun i => (digitVal (s.data.getD i '0') : Int))).sum))
              10)) := by
  refine ⟨by decide, by decide, by decide, ?_, ?_, ?_, ?_⟩
  · rintro ⟨c, hc, hcd⟩ strict
    have hall : s.data.all Char.isDigit = false := by
      rcases hb : s.data.all Char.isDigit with _ | _
      · rfl
      · exact absurd (List.all_eq_true.mp hb c hc) hcd
    have hdig : UpcA.isdigitStr s.data = false := by
      simp [UpcA.isdigitStr, hall]
    simp [UpcA.apply, hdig]
  · intro hlong strict
    by_cases hdig : UpcA.isdigitStr s.data = true
    · refine ⟨"UPC-A is longer than 12 digits", ?_⟩
      have hlen : (List.replicate (12 - s.data.length) '0' ++ s.data).length > 12 := by
        rw [List.length_append, List.length_replicate]
        omega
      simp only [UpcA.apply, hdig, Bool.not_true, Bool.false_eq_true, if_false,
        if_pos hlen]
    · refine ⟨"UPC-A code is not numeric.", ?_⟩
      simp only [Bool.not_eq_true] at hdig
      simp [UpcA.apply, hdig]
  · intro hdig hle
    have hlen : (List.replicate (12 - s.data.length) '0' ++ s.data).length = 12 := by
      rw [List.length_append, List.length_replicate]
      omega
    refine ⟨String.mk (List.replicate (12 - s.data.length) '0' ++ s.data), ?_, ?_, ?_, ?_⟩
    · simp only [UpcA.apply, hdig, Bool.not_true, Bool.false_eq_true, if_false]
      rw [if_neg (by omega)]
    · exact hlen
    · have hdl := List.drop_left (List.replicate (12 - s.data.length) '0') s.data
      rw [List.length_replicate] at hdl
      exact hdl
    · intro c hc
      have htl := List.take_left (List.replicate (12 - s.data.length) '0') s.data
      rw [List.length_replicate] at htl
      rw [show (String.mk (List.replicate (12 - s.data.length) '0' ++ s.data)).data =
        List.replicate (12 - s.data.length) '0' ++ s.data from rfl, htl] at hc
      exact List.eq_of_mem_replicate hc
  · intro hdig hl12
    have hpad : 12 - s.data.length = 0 := by omega
    have hvalue : List.replicate (12 - s.data.length) '0' ++ s.data = s.data := by
      rw [hpad]
      simp
    have hmk : String.mk s.data = s := by cases s; rfl
    have hidx : ∀ i d (hi : i < 12), s.data.getD i d = s.data.get ⟨i, by omega⟩ := by
      intro i d hi
      rw [List.getD_eq_getElem?_getD, List.getElem?_eq_getElem (by omega)]
      rfl
    have hslice0 : sliceIdx s.data.length 0 11 2 = [0, 2, 4, 6, 8, 10] := by
      rw [hl12]
      decide
    have hslice1 : sliceIdx s.data.length 1 11 2 = [1, 3, 5, 7, 9] := by
      rw [hl12]
      decide
    have hlast : s.data.getLast?.getD '0' = s.data.getD 11 '0' := by
      rw [List.getLast?_eq_getElem?, List.getD_eq_getElem?_getD, hl12]
    have hsum0 : ((pySlice s.data 0 11 2).map digitVal).sum =
        ([0, 2, 4, 6, 8, 10].map (fun i => digitVal (s.data.getD i '0'))).sum := by
      simp only [pySlice, hslice0, List.map_map, List.map_cons, List.map_nil,
        Function.comp]
      rw [hidx 0 ' ' (by omega), hidx 2 ' ' (by omega), hidx 4 ' ' (by omega),
        hidx 6 ' ' (by omega), hidx 8 ' ' (by omega), hidx 10 ' ' (by omega),
        hidx 0 '0' (by omega), hidx 2 '0' (by omega), hidx 4 '0' (by omega),
        hidx 6 '0' (by omega), hidx 8 '0' (by omega), hidx 10 '0' (by omega)]
    have hsum1 : ((pySlice s.data 1 11 2).map digitVal).sum =
        ([1, 3, 5, 7, 9].map (fun i => digitVal (s.data.getD i '0'))).sum := by
      simp only [pySlice, hslice1, List.map_map, List.map_cons, List.map_nil,
        Function.comp]
      rw [hidx 1 ' ' (by omega), hidx 3 ' ' (by omega), hidx 5 ' ' (by omega),
        hidx 7 ' ' (by omega), hidx 9 ' ' (by omega),
        hidx 1 '0' (by omega), hidx 3 '0' (by omega), hidx 5 '0' (by omega),
        hidx 7 '0' (by omega), hidx 9 '0' (by omega)]
    have happly : UpcA.apply true s =
        (if (digitVal (s.data.getLast?.getD '0') : Int) ≠
            pyMod (-1 * ((((pySlice s.data 0 11 2).map digitVal).sum : Int) * 3 +
              (((pySlice s.data 1 11 2).map digitVal).sum : Int))) 10 then
          .error (.valueError "UPC-A check digit is incorrect")
        else .ok (String.mk s.data)) := by
      simp only [UpcA.apply, hdig, Bool.not_true, Bool.false_eq_true, if_false, hvalue]
      rw [if_neg (by omega : ¬ s.data.length > 12)]
      rw [if_pos trivial]
    have h0 : (((pySlice s.data 0 11 2).map digitVal).sum : Int) =
        ([0, 2, 4, 6, 8, 10].map (fun i => (digitVal (s.data.getD i '0') : Int))).sum := by
      rw [hsum0]
      simp [Nat.cast_list_sum, List.map_map, Function.comp]
    have h1 : (((pySlice s.data 1 11 2).map digitVal).sum : Int) =
        ([1, 3, 5, 7, 9].map (fun i => (digitVal (s.data.getD i '0') : Int))).sum := by
      rw [hsum1]
      simp [Nat.cast_list_sum, List.map_map, Function.comp]
    have hcheckEq : pyMod (-1 * ((((pySlice s.data 0 11 2).map digitVal).sum : Int) * 3 +
        (((pySlice s.data 1 11 2).map digitVal).sum : Int))) 10 =
        pyMod
          (-(([0, 2, 4, 6, 8, 10].map
                (fun i => (digitVal (s.data.getD i '0') : Int))).sum * 3 +
              ([1, 3, 5, 7, 9].map
                (fun i => (digitVal (s.data.getD i '0') : Int))).sum))
          10 := by
      rw [h0, h1]
      congr 1
      ring
    rw [happly, hlast, hcheckEq]
    by_cases hc : (digitVal (s.data.getD 11 '0') : Int) =
        pyMod
          (-(([0, 2, 4, 6, 8, 10].map
                (fun i => (digitVal (s.data.getD i '0') : Int))).sum * 3 +
              ([1, 3, 5, 7, 9].map
                (fun i => (digitVal (s.data.getD i '0') : Int))).sum))
          10
    · rw [if_neg (fun hne => hne hc), hmk]
      exact iff_of_true rfl hc
    · rw [if_pos hc]
      exact iff_of_false (fun h => Except.noConfusion h) hc

/-- Witness for C6: the closed conjuncts, a non-digit input, a
13-digit input, and the zero-padding of `"635"`. -/
theorem c6_upca_checksum_witness :
    UpcA.apply true "1a" = .error (.valueError "UPC-A code is not numeric.") ∧
      (∃ m, UpcA.apply false "1234567890123" = .error (.valueError m)) ∧
      (∃ out, UpcA.apply false "635" = .ok out ∧ out.data.length = 12 ∧
        out.data.drop (12 - "635".data.length) = "635".data ∧
        ∀ c ∈ out.data.take (12 - "635".data.length), c = '0') :=
  ⟨(c6_upca_checksum "1a").2.2.2.1 ⟨'a', by decide, by decide⟩ true,
   (c6_upca_checksum "1234567890123").2.2.2.2.1 (by decide) false,
   (c6_upca_checksum "635").2.2.2.2.2.1 (by decide) (by decide)⟩

namespace Unique

def ACTION_ERROR : Nat := 1
def ACTION_DROPROW : Nat := 2

/-- `rigidity.rules.Unique.apply` with its per-instance state made
explicit: `encountered` (the list built up by `self.encountered.append(value)`)
is threaded through.  A repeated value raises a bare
`Exception('Value not unique')` under ACTION_ERROR (and under any
unrecognised action), `DropRow` under ACTION_DROPROW; a fresh value is
appended to the state and returned unchanged. -/
def apply {α : Type} [DecidableEq α] (action : Nat) (st : List α) (v : α) :
    List α × Except RError α :=
  if v ∈ st then
    if action = ACTION_ERROR then (st, .error (.exceptionErr "Value not unique"))
    else if action = ACTION_DROPROW then (st, .error .dropRow)
    else (st, .error (.exceptionErr "Value not unique"))
  else (st ++ [v], .ok v)

/-- A sequence of `apply` calls on one rule instance, threading the
instance's `encountered` state, collecting each call's outcome. -/
def applySeq {α : Type} [DecidableEq α] (action : Nat) (st : List α) :
    List α → List α × List (Except RError α)
  | [] => (st, [])
  | v :: vs =>
    let r := apply action st v
    let rest := applySeq action r.1 vs
    (rest.1, r.2 :: rest.2)

end Unique

theorem unique_apply_fst_mem {α : Type} [DecidableEq α] (action : Nat)
    (st : List α) (v x : α) :
    x ∈ (Unique.apply action st v).1 ↔ x ∈ st ∨ x = v := by
  by_cases hv : v ∈ st
  · simp only [Unique.apply, if_pos hv]
    split_ifs <;>
      exact ⟨fun h => Or.inl h, fun h => h.elim id (fun hx => hx ▸ hv)⟩
  · simp only [Unique.apply, if_neg hv, List.mem_append, List.mem_singleton]

theorem unique_applySeq_fst_mem {α : Type} [DecidableEq α] (action : Nat)
    (st : List α) (vs : List α) (x : α) :
    x ∈ (Unique.applySeq action st vs).1 ↔ x ∈ st ∨ x ∈ vs := by
  induction vs generalizing st with
  | nil => simp [Unique.applySeq]
  | cons v vs ih =>
    simp only [Unique.applySeq]
    rw [ih, unique_apply_fst_mem]
    simp only [List.mem_cons]
    tauto

theorem unique_applySeq_get {α : Type} [DecidableEq α] (action : Nat)
    (st : List α) (vs : List α) (i : Nat) (h : i < vs.length) :
    (Unique.applySeq action st vs).2[i]? =
      some (Unique.apply action (Unique.applySeq action st (vs.take i)).1
        (vs.get ⟨i, h⟩)).2 := by
  induction vs generalizing st i with
  | nil => simp at h
  | cons v vs ih =>
    cases i with
    | zero => simp [Unique.applySeq]
    | succ n =>
      simp only [Unique.applySeq, List.getElem?_cons_succ, List.take_succ_cons,
        List.get_cons_succ]
      exact ih (Unique.apply action st v).1 n (by simpa using h)

/-- **C7.**  The Unique rule across any sequence of `apply` calls on a
fresh instance: call `i` passes its value through unchanged exactly
when the value did not occur earlier in the sequence; a repeated value
raises the bare `Exception` (a "ValidationFailed") under ACTION_ERROR
and `DropRow` under ACTION_DROPROW; and after the whole sequence the
instance's `encountered` state holds exactly the set of all values
seen. -/
theorem c7_unique_first_occurrence {α : Type} [DecidableEq α] (action : Nat)
    (vs : List α) (i : Nat) (h : i < vs.length) :
    (vs.get ⟨i, h⟩ ∉ vs.take i →
      (Unique.applySeq action ([] : List α) vs).2[i]? = some (.ok (vs.get ⟨i, h⟩))) ∧
    (vs.get ⟨i, h⟩ ∈ vs.take i →
      (action = Unique.ACTION_ERROR →
        (Unique.applySeq action ([] : List α) vs).2[i]? =
            some (.error (.exceptionErr "Value not unique")) ∧
          (RError.exceptionErr "Value not unique").isValidationFailed = true) ∧
      (action = Unique.ACTION_DROPROW →
        (Unique.applySeq action ([] : List α) vs).2[i]? = some (.error .dropRow))) ∧
    (∀ x, x ∈ (Unique.applySeq action ([] : List α) vs).1 ↔ x ∈ vs) := by
  have hmemst : ∀ x, x ∈ (Unique.applySeq action ([] : List α) (vs.take i)).1 ↔
      x ∈ vs.take i := by
    intro x
    rw [unique_applySeq_fst_mem]
    simp
  refine ⟨?_, ?_, ?_⟩
  · intro hnew
    rw [unique_applySeq_get action [] vs i h]
    have hv : vs.get ⟨i, h⟩ ∉ (Unique.applySeq action ([] : List α) (vs.take i)).1 := by
      rw [hmemst]
      exact hnew
    simp only [Unique.apply, if_neg hv]
  · intro hrep
    have hv : vs.get ⟨i, h⟩ ∈ (Unique.applySeq action ([] : List α) (vs.take i)).1 := by
      rw [hmemst]
      exact hrep
    constructor
    · intro ha
      refine ⟨?_, rfl⟩
      rw [unique_applySeq_get action [] vs i h]
      simp only [Unique.apply, if_pos hv, if_pos ha]
    · intro ha
      rw [unique_applySeq_get action [] vs i h]
      have hne : ¬ action = Unique.ACTION_ERROR := by
        rw [ha]
        decide
      simp only [Unique.apply, if_pos hv, if_neg hne, if_pos ha]
  · intro x
    rw [unique_applySeq_fst_mem]
    simp

/-- Witness for C7: sequence `[1, 2, 1]` — value 1 repeats with the
unrelated value 2 in between.  Call 0 passes, call 2 raises
(`Exception` under ACTION_ERROR, `DropRow` under ACTION_DROPROW), and
the final state holds exactly the values seen. -/
theorem c7_unique_first_occurrence_witness :
    (Unique.applySeq 1 ([] : List Nat) [1, 2, 1]).2[0]? = some (.ok 1) ∧
      (Unique.applySeq 1 ([] : List Nat) [1, 2, 1]).2[2]? =
        some (.error (.exceptionErr "Value not unique")) ∧
      (Unique.applySeq 2 ([] : List Nat) [1, 2, 1]).2[2]? = some (.error .dropRow) ∧
      (3 ∈ (Unique.applySeq 1 ([] : List Nat) [1, 2, 1]).1 ↔ 3 ∈ [1, 2, 1]) :=
  ⟨(c7_unique_first_occurrence 1 [1, 2, 1] 0 (by decide)).1 (by decide),
   (((c7_unique_first_occurrence 1 [1, 2, 1] 2 (by decide)).2.1 (by decide)).1 rfl).1,
   ((c7_unique_first_occurrence 2 [1, 2, 1] 2 (by decide)).2.1 (by decide)).2 rfl,
   (c7_unique_first_occurrence 1 [1, 2, 1] 0 (by decide)).2.2 3⟩

namespace Cary

def ACTION_ERROR : Nat := 1
def ACTION_DEFAULT : Nat := 2
def ACTION_DROPROW : Nat := 3

/-- Modelled from the spec: the carry-forward rule `Cary` belongs to
this repository's rule set (src/tests/test_rules.py exercises
`rigidity.rules.Cary` with exactly these three actions and a
`default` parameter) but its class is missing from
src/rigidity/rules.py.  Per the spec's rule table — output "the value
itself if non-empty, else the last non-empty value seen by this rule
instance"; "on first occurrence with no prior value: raise /
configured default / drop-row, per policy" — with the instance state
(the last non-empty value seen, if any) made explicit. -/
def apply (action : Nat) (dflt : String) (st : Option String) (v : String) :
    Option String × Except RError String :=
  if v ≠ "" then (some v, .ok v)
  else
    match st with
    | some last => (some last, .ok last)
    | none =>
      if action = ACTION_ERROR then (none, .error (.valueError "No value to carry"))
      else if action = ACTION_DEFAULT then (none, .ok dflt)
      else if action = ACTION_DROPROW then (none, .error .dropRow)
      else (none, .error (.valueError "No value to carry"))

end Cary

/-- **C9.**  The carry-forward rule: a non-empty value passes through
unchanged (and becomes the carried value); an empty value is replaced
by the last non-empty value seen when one exists; and an empty value
with no prior non-empty value raises `ValueError`, returns the
configured default, or raises `DropRow`, according to the configured
policy. -/
theorem c9_cary_carry_forward (action : Nat) (dflt : String) (st : Option String)
    (v : String) :
    (v ≠ "" → Cary.apply action dflt st v = (some v, .ok v)) ∧
    (∀ last, v = "" → st = some last →
      Cary.apply action dflt st v = (some last, .ok last)) ∧
    (v = "" → st = none →
      Cary.apply Cary.ACTION_ERROR dflt st v =
          (none, .error (.valueError "No value to carry")) ∧
        Cary.apply Cary.ACTION_DEFAULT dflt st v = (none, .ok dflt) ∧
        Cary.apply Cary.ACTION_DROPROW dflt st v = (none, .error .dropRow)) := by
  refine ⟨fun hv => ?_, fun last hv hst => ?_, fun hv hst => ?_⟩
  · simp only [Cary.apply, if_pos hv]
  · subst hv hst
    rfl
  · subst hv hst
    exact ⟨rfl, rfl, rfl⟩

/-- Witness for C9: carry `"test"` into a following empty field; with
no prior value, the three policies raise, default, drop. -/
theorem c9_cary_carry_forward_witness :
    Cary.apply 1 "" none "test" = (some "test", .ok "test") ∧
      Cary.apply 1 "" (some "test") "" = (some "test", .ok "test") ∧
      Cary.apply Cary.ACTION_ERROR "" none "" =
        (none, .error (.valueError "No value to carry")) ∧
      Cary.apply Cary.ACTION_DEFAULT "d" none "" = (none, .ok "d") ∧
      Cary.apply Cary.ACTION_DROPROW "" none "" = (none, .error .dropRow) :=
  ⟨(c9_cary_carry_forward 1 "" none "test").1 (by decide),
   (c9_cary_carry_forward 1 "" (some "test") "").2.1 "test" rfl rfl,
   ((c9_cary_carry_forward Cary.ACTION_ERROR "" none "").2.2 rfl rfl).1,
   ((c9_cary_carry_forward Cary.ACTION_DEFAULT "d" none "").2.2 rfl rfl).2.1,
   ((c9_cary_carry_forward Cary.ACTION_DROPROW "" none "").2.2 rfl rfl).2.2⟩

/-! ## Attribute delegation (C10) -/

/-- Attribute-table lookup (Python attribute resolution modelled as an
association list; first binding wins). -/
def lookupAttr {α : Type} (attrs : List (String × α)) (name : String) : Option α :=
  (attrs.find? (fun p => p.1 = name)).map (fun p => p.2)

/-- Native attribute lookup on a plain object: the value, or
`AttributeError`. -/
def pyGetattrPlain {α : Type} (attrs : List (String × α)) (name : String) :
    Except RError α :=
  match lookupAttr attrs name with
  | some v => .ok v
  | none => .error .attributeError

/-- `getattr` on a `Rigidity` wrapper: Python first resolves the name
among the wrapper's own (class and instance) attributes; only on
failure it calls `Rigidity.__getattr__`, which returns
`getattr(self.csvobj, name)` when `hasattr(self.csvobj, name)` and
otherwise evaluates `super().__getattr__(self, name)` — an expression
that itself raises `AttributeError` (class `object` defines no
`__getattr__`), so the lookup fails with the same exception type as a
native failed attribute lookup (only the message text differs, which
is not modelled). -/
def rigidityGetattr {α : Type} (own csvobjAttrs : List (String × α))
    (name : String) : Except RError α :=
  match lookupAttr own name with
  | some v => .ok v
  | none =>
    match lookupAttr csvobjAttrs name with
    | some v => .ok v
    | none => .error .attributeError

/-- **C10.**  For every attribute name the wrapper does not define
itself, the lookup is exactly the native attribute lookup on the
underlying csv object: present attributes are forwarded, and when the
underlying object lacks the name too the wrapper raises
`AttributeError` just as a native lookup on a plain object would —
never a silent default. -/
theorem c10_attribute_delegation {α : Type} (own csvobjAttrs : List (String × α))
    (name : String) (hown : lookupAttr own name = none) :
    rigidityGetattr own csvobjAttrs name = pyGetattrPlain csvobjAttrs name ∧
      (lookupAttr csvobjAttrs name = none →
        rigidityGetattr own csvobjAttrs name = .error .attributeError) := by
  constructor
  · simp only [rigidityGetattr, pyGetattrPlain, hown]
  · intro hcsv
    simp only [rigidityGetattr, hown, hcsv]

/-- Witness for C10: the wrapper's own attributes are `rules`; the csv
object exposes `line_num`; `line_num` is forwarded, `missing` raises
`AttributeError`. -/
theorem c10_attribute_delegation_witness :
    rigidityGetattr [("rules", 1)] [("line_num", 2)] "line_num" =
        pyGetattrPlain [("line_num", 2)] "line_num" ∧
      rigidityGetattr [("rules", 1)] [("line_num", 2)] "missing" =
        .error .attributeError :=
  ⟨(c10_attribute_delegation [("rules", 1)] [("line_num", 2)] "line_num"
      (by decide)).1,
   (c10_attribute_delegation [("rules", 1)] [("line_num", 2)] "missing"
      (by decide)).2 (by decide)⟩

end Rigidity
